import Mathlib

/-!
Verification development for the `store-alert` repository: a tabbed web-monitor
GUI whose deterministic core is, per tab, a polling state machine that counts
order-status markers on a page, compares the count against a threshold, and
enters timed pause/resume cycles; tab configuration is persisted to a JSON
file on window close and read back on startup.

The definitions below are shallow embeddings of the Python source:
`MonitorTab.process_text` (store-alert.py, bk.py), `MonitorTab.handle_js_count`,
`MonitorTab.pause_monitoring` / `resume_monitoring`, `MonitorTab.get_state`,
`MainApp.closeEvent`, `MainApp.load_tabs` (both revisions) and
`MainApp._inject_date_range` (both revisions).  Machine floats (prices, times)
are modelled as rationals; JSON numeric values likewise.  GUI concerns
(widgets, colors, sounds) are modelled as emitted events where a claim needs
them and omitted otherwise.
-/

namespace StoreAlert

/-! ## Rational helpers

`Rat.add/sub/mul` are `@[irreducible]`, so the embedding performs the few
arithmetic steps the source does on floats through explicit num/den formulas;
bridge lemmas relate them to the standard operations. -/

/-- Subtraction of rationals (models Python float subtraction, e.g.
`(now - last_price_alert_time).total_seconds()`). -/
def qsub (a b : ℚ) : ℚ := mkRat (a.num * b.den - b.num * a.den) (a.den * b.den)

theorem qsub_eq_sub (a b : ℚ) : qsub a b = a - b := (Rat.sub_def' a b).symm

/-- Python `round(x, 2)` scaled by 100: the banker's (round-half-to-even)
rounding of `100 * x`, returned as the integer numerator over 100.  The source
only ever compares two `round(_, 2)` results, and comparing the scaled values
is equivalent to comparing the rounded rationals. -/
def round2 (q : ℚ) : Int :=
  let n := q.num * 100
  let d : Int := (q.den : Int)
  let fl := n.fdiv d
  let r := n - fl * d
  if 2 * r < d then fl
  else if 2 * r > d then fl + 1
  else if fl % 2 = 0 then fl else fl + 1

/-! ## Python `str.count`

Non-overlapping left-to-right occurrence count, as used by
`text.count("ACCEPTED")`.  The fuel argument equals the length of the scanned
text; every step consumes at least one character. -/

def countSub (pat : List Char) : Nat → List Char → Nat
  | 0, _ => 0
  | _ + 1, [] => 0
  | fuel + 1, c :: rest =>
    if pat.isPrefixOf (c :: rest) then
      1 + countSub pat fuel ((c :: rest).drop pat.length)
    else
      countSub pat fuel rest

def acceptedStr : String := "ACCEPTED"

def pyCount (pat s : String) : Nat := countSub pat.data s.data.length s.data

/-! ## Events

Observable side effects of a single scan callback: sounds/visual alerts, log
lines, and the one-shot resume timer (`QTimer.singleShot(seconds * 1000, ...)`,
recorded in seconds). -/

inductive Event where
  /-- `log_event` of the price-limit message (store_alert.py line 191). -/
  | priceLog (name : String) (count avg : ℚ)
  /-- `alert_user(total_count)`: tab coloring and alert sound. -/
  | alertUser (count : ℚ)
  /-- `log_event` of the threshold message (store_alert.py line 203). -/
  | thresholdLog (name : String) (count : ℚ)
  /-- `log_event` of the no-orders message (store_alert.py line 211). -/
  | emptyLog (name : String)
  /-- `QTimer.singleShot(seconds * 1000, self.resume_monitoring)`. -/
  | scheduleResume (seconds : Int)
  /-- `notify(count)` in store-alert.py / bk.py (sound plus notification). -/
  | notifyDash (count : Int)
deriving DecidableEq

/-! ## MonitorTab runtime state (store_alert.py) -/

structure TabState where
  tab_name : String
  url : String
  original_url : String
  threshold : Int
  resume_delay : Int
  max_order_price : ℚ
  monitoring : Bool
  paused : Bool
  page_ready : Bool
  /-- whether `monitor_timer` is running -/
  timerActive : Bool
  empty_scan_count : Int
  last_price_alert_time : Option ℚ
deriving DecidableEq

/-- `MonitorTab.pause_monitoring(seconds)`: stop the scan timer, set `paused`,
and schedule `resume_monitoring` after `seconds` seconds. -/
def pause_monitoring (s : TabState) (seconds : Int) : TabState × List Event :=
  ({ s with timerActive := false, paused := true }, [Event.scheduleResume seconds])

/-- `MonitorTab.resume_monitoring`: clear `paused`; if monitoring is still
enabled, restart the scan timer. -/
def resume_monitoring (s : TabState) : TabState :=
  { s with paused := false, timerActive := if s.monitoring then true else s.timerActive }

/-- The price-limit check at the top of `handle_js_count` (store_alert.py
lines 188-194).  Returns the new `last_price_alert_time` and the emitted log
events.  The alert fires when `round(avg,2) >= round(max_order_price,2)` and
`total_count > 0`, and additionally `last_price_alert_time` is unset or at
least 120 seconds old. -/
def priceCheck (now : ℚ) (s : TabState) (total_count avg : ℚ) :
    Option ℚ × List Event :=
  if round2 avg ≥ round2 s.max_order_price ∧ total_count > 0 then
    match s.last_price_alert_time with
    | none => (some now, [Event.priceLog s.tab_name total_count avg])
    | some t0 =>
      if qsub now t0 ≥ 120 then (some now, [Event.priceLog s.tab_name total_count avg])
      else (some t0, [])
  else (s.last_price_alert_time, [])

/-- The threshold / empty-scan logic of `handle_js_count` (store_alert.py
lines 196-217), run after the price-limit check. -/
def restStep (s : TabState) (total_count : ℚ) : TabState × List Event :=
  if total_count ≥ (s.threshold : ℚ) then
    let p := pause_monitoring s (s.resume_delay * 60)
    ({ p.1 with empty_scan_count := 0 },
      [Event.alertUser total_count, Event.thresholdLog s.tab_name total_count] ++ p.2)
  else if total_count = 0 ∧ s.monitoring = true ∧ s.paused = false then
    let s1 := { s with empty_scan_count := s.empty_scan_count + 1 }
    if s1.empty_scan_count ≥ 5 then
      let p := pause_monitoring s1 180
      ({ p.1 with empty_scan_count := 0 }, [Event.emptyLog s.tab_name] ++ p.2)
    else (s1, [])
  else ({ s with empty_scan_count := 0 }, [])

/-- `MonitorTab.handle_js_count(result)` (store_alert.py lines 180-217).
`result` is the value delivered by `runJavaScript`: `none` models a non-list
value; a list of any length other than 3 is rejected up front.  `now` is the
wall-clock time (`datetime.now()`) in seconds. -/
def handle_js_count (now : ℚ) (s : TabState) (result : Option (List ℚ)) :
    TabState × List Event :=
  match result with
  | some [total_count, _total_sum, avg] =>
    let pc := priceCheck now s total_count avg
    let s1 := { s with last_price_alert_time := pc.1 }
    let rs := restStep s1 total_count
    (rs.1, pc.2 ++ rs.2)
  | _ => (s, [])

/-! ## MonitorTab scan processing (store-alert.py and bk.py)

The older revisions extract the whole page text and count the marker string:
`count = text.count("ACCEPTED") - 1`, then compare `count` to the threshold
(`process_text`, store-alert.py lines 131-144, bk.py lines 122-135; both pause
after `count == 0` has repeated `MAX_EMPTY_SCANS = 10` times). -/

structure DashTab where
  threshold : Int
  resume_delay : Int
  empty_scans : Int
  monitoring : Bool
  paused : Bool
  timerActive : Bool
deriving DecidableEq

/-- `pause_monitoring` of store-alert.py / bk.py (same timer/flag effect). -/
def dashPause (s : DashTab) (seconds : Int) : DashTab × List Event :=
  ({ s with timerActive := false, paused := true }, [Event.scheduleResume seconds])

/-- `MonitorTab.process_text(text)` of store-alert.py / bk.py. -/
def process_text (s : DashTab) (text : String) : DashTab × List Event :=
  let count : Int := (pyCount acceptedStr text : Int) - 1
  if count ≥ s.threshold then
    let p := dashPause s (s.resume_delay * 60)
    (p.1, [Event.notifyDash count] ++ p.2)
  else if count = 0 then
    let s1 := { s with empty_scans := s.empty_scans + 1 }
    if s1.empty_scans ≥ 10 then
      let p := dashPause s1 180
      ({ p.1 with empty_scans := 0 }, p.2)
    else (s1, [])
  else ({ s with empty_scans := 0 }, [])

/-! ## `MainApp._inject_date_range`

Both revisions prepend `https://` when the URL does not start with `http`,
compute the noon-yesterday / noon-today timestamps (modelled as the two
parameters `tsS`, `tsE`, rendered in decimal — the claims are all "at a fixed
clock"), and append one fresh `updates_list_dateRange[]=start,end` parameter.
The regex substitutions are modelled as explicit scanners, each mirroring the
(leftmost, non-overlapping, greedy-with-backtracking) behaviour of `re.sub` on
its pattern.  All scanners take fuel equal to the length of the scanned list;
every step consumes at least one character. -/

/-- Decimal rendering of a natural number (Python `f"{n}"`). -/
def digitChar10 (d : Nat) : Char :=
  if d = 0 then '0' else if d = 1 then '1' else if d = 2 then '2'
  else if d = 3 then '3' else if d = 4 then '4' else if d = 5 then '5'
  else if d = 6 then '6' else if d = 7 then '7' else if d = 8 then '8' else '9'

def natToDecAux : Nat → Nat → List Char
  | 0, _ => []
  | fuel + 1, n =>
    if n < 10 then [digitChar10 n]
    else natToDecAux fuel (n / 10) ++ [digitChar10 (n % 10)]

def natToDec (n : Nat) : List Char := natToDecAux (n + 1) n

/-- The literal `updates_list_dateRange[]=` of the regex
`(updates_list_dateRange\[\]=)[^&]*`. -/
def litDR : List Char := "updates_list_dateRange[]=".data

/-- `url.startswith("http")`, with the `https://` prepend. -/
def ensureHttp (s : List Char) : List Char :=
  if s.take 4 = "http".data then s else "https://".data ++ s

/-- `re.sub(r"(updates_list_dateRange\[\]=)[^&]*", "", url)`: at each position,
if the literal matches, discard it together with the following maximal run of
non-`&` characters and continue after the match; otherwise keep the character. -/
def stripDR : Nat → List Char → List Char
  | 0, s => s
  | _ + 1, [] => []
  | fuel + 1, c :: rest =>
    if litDR.isPrefixOf (c :: rest) then
      stripDR fuel (((c :: rest).drop litDR.length).dropWhile (fun x => x != '&'))
    else c :: stripDR fuel rest

def isAmpQ (c : Char) : Bool := c = '&' || c = '?'

/-- `\d{13}`: at least 13 characters remain and the first 13 are digits. -/
def digits13 (s : List Char) : Bool :=
  decide (13 ≤ s.length) && (s.take 13).all Char.isDigit

/-- The optional greedy group `(?:,\d{13})?`: number of characters it consumes. -/
def optComma13 (s : List Char) : Nat :=
  match s with
  | ',' :: rest => if digits13 rest then 14 else 0
  | _ => 0

/-- A match of `[&?]?\d{13}(?:,\d{13})?` anchored at the head of `s`: number of
characters consumed, if any.  The greedy `[&?]?` is tried consumed-first; its
fallback to the empty match can only succeed when the head is a digit. -/
def matchTS (s : List Char) : Option Nat :=
  match s with
  | [] => none
  | c :: rest =>
    if isAmpQ c && digits13 rest then some (1 + 13 + optComma13 (rest.drop 13))
    else if digits13 (c :: rest) then some (13 + optComma13 ((c :: rest).drop 13))
    else none

/-- `re.sub(r"[&?]?\d{13}(?:,\d{13})?", "", url)` as a scanner. -/
def stripTS : Nat → List Char → List Char
  | 0, s => s
  | _ + 1, [] => []
  | fuel + 1, c :: rest =>
    match matchTS (c :: rest) with
    | some k => stripTS fuel ((c :: rest).drop k)
    | none => c :: stripTS fuel rest

/-- Largest index `i ≥ 1` of `l` holding `'&'` (the backtracking of the greedy
`[&?]+` against the lookahead `(?=&)`: the match consumes `i` characters and
the lookahead inspects `l[i]`). -/
def lastAmpIdx (l : List Char) : Option Nat :=
  (List.range l.length).foldl
    (fun acc i => if 1 ≤ i ∧ l.getD i ' ' = '&' then some i else acc) none

/-- A match of `[&?]+(?=&)|[&?]+$` anchored at the head of `s`: number of
characters consumed, if any.  The first branch consumes the longest run prefix
whose next character is `'&'`; failing that, the second branch consumes the
whole remaining string when it is entirely `[&?]` characters. -/
def sub3match (s : List Char) : Option Nat :=
  match s with
  | [] => none
  | c :: _ =>
    if isAmpQ c then
      let r := (s.takeWhile isAmpQ).length
      match lastAmpIdx (s.take r) with
      | some k => some k
      | none => if r = s.length then some r else none
    else none

/-- `re.sub(r"[&?]+(?=&)|[&?]+$", "", url)` as a scanner. -/
def sub3scan : Nat → List Char → List Char
  | 0, s => s
  | _ + 1, [] => []
  | fuel + 1, c :: rest =>
    match sub3match (c :: rest) with
    | some k => sub3scan fuel ((c :: rest).drop k)
    | none => c :: sub3scan fuel rest

/-- `re.sub(r"[&]+", "&", url)`: collapse runs of ampersands. -/
def collapseAmp : Nat → List Char → List Char
  | 0, s => s
  | _ + 1, [] => []
  | fuel + 1, c :: rest =>
    if c = '&' then '&' :: collapseAmp fuel (rest.dropWhile (fun x => x = '&'))
    else c :: collapseAmp fuel rest

/-- The appended parameter text `updates_list_dateRange[]={tsS},{tsE}`. -/
def dateParam (tsS tsE : Nat) : List Char :=
  litDR ++ natToDec tsS ++ [','] ++ natToDec tsE

/-- `MainApp._inject_date_range` of store_alert.py (lines 491-498): prepend
scheme if needed, strip any existing parameter text, pick `&` or `?` by
whether the stripped URL contains `?`, and append the fresh parameter. -/
def inject_date_range (tsS tsE : Nat) (url : List Char) : List Char :=
  let u := ensureHttp url
  let u1 := stripDR u.length u
  let sep : List Char := if u1.contains '?' then ['&'] else ['?']
  u1 ++ sep ++ dateParam tsS tsE

/-- `MainApp._inject_date_range` of store-alert.py (lines 427-445): as above
but with two extra cleanup substitutions before the append (stray 13-digit
timestamps, dangling separators) and a final collapse of `&` runs. -/
def inject_date_range_dash (tsS tsE : Nat) (url : List Char) : List Char :=
  let u := ensureHttp url
  let u1 := stripDR u.length u
  let u2 := stripTS u1.length u1
  let u3 := sub3scan u2.length u2
  let sep : List Char := if u3.contains '?' then ['&'] else ['?']
  let appended := u3 ++ sep ++ dateParam tsS tsE
  collapseAmp appended.length appended

/-! ## JSON values and the persisted tab records

Python JSON values.  Numbers are modelled as rationals (`json` distinguishes
int and float literals; the embedding keeps integers in `jint` and any numeric
value in `jnum`, which loses nothing the claims depend on). -/

inductive Json where
  | jnull
  | jbool (b : Bool)
  | jint (n : Int)
  | jnum (q : ℚ)
  | jstr (s : String)
  | jarr (xs : List Json)
  | jobj (kvs : List (String × Json))

/-- `dict.get(k, default)` on a JSON object: later duplicate keys overwrite
earlier ones in a Python dict, hence the lookup on the reversed list. -/
def jget (kvs : List (String × Json)) (k : String) : Option Json :=
  (kvs.reverse.find? (fun p => p.1 == k)).map (fun p => p.2)

/-- Python `int(x)` restricted to the values that can appear here: ints stay,
numeric values truncate toward zero, bools become 0/1, strings parse as
integer literals; anything else raises (`none`). -/
def pyInt : Json → Option Int
  | .jint n => some n
  | .jnum q => some (if q < 0 then -((-q).floor) else q.floor)
  | .jbool b => some (if b then 1 else 0)
  | .jstr s => s.toInt?
  | _ => none

/-- Python `float(x)` similarly (string parsing kept to integer literals,
which is all the repository's own files can produce). -/
def pyFloat : Json → Option ℚ
  | .jint n => some (n : ℚ)
  | .jnum q => some q
  | .jbool b => some (if b then 1 else 0)
  | .jstr s => (s.toInt?).map (fun n => (n : ℚ))
  | _ => none

def keyName : String := "name"
def keyUrl : String := "url"
def keyThreshold : String := "threshold"
def keyResumeDelay : String := "resume_delay"
def keyMaxOrderPrice : String := "max_order_price"

/-- `MonitorTab.get_state` (store_alert.py lines 300-306): the persisted
record; note the saved `url` is the preserved `original_url`. -/
def get_state (t : TabState) : Json :=
  .jobj [(keyName, .jstr t.tab_name),
         (keyUrl, .jstr t.original_url),
         (keyThreshold, .jint t.threshold),
         (keyResumeDelay, .jint t.resume_delay),
         (keyMaxOrderPrice, .jnum t.max_order_price)]

/-- Contents of `tabs_config.json` as seen by startup: missing file, present
but not valid JSON, or a parsed JSON value. -/
inductive ConfigContents where
  | absent
  | invalid
  | valid (j : Json)

/-- `MainApp.closeEvent` (store_alert.py lines 547-550): open the config file
in `"w"` mode (truncating whatever was there) and dump the list of
`get_state` records.  The previous contents are ignored entirely. -/
def closeEventWrite (_prev : ConfigContents) (tabs : List TabState) : ConfigContents :=
  .valid (.jarr (tabs.map get_state))

/-- The `filtered_data` record built per config entry by
`MainApp.load_tabs` (store_alert.py lines 530-536).  `name` and `url` are
taken as-is (no conversion in the source), the numeric fields go through
`int()` / `float()`. -/
structure LoadedTab where
  name : Json
  url : Json
  threshold : Int
  resume_delay : Int
  max_order_price : ℚ

/-- One iteration of the per-record loop of `load_tabs` (store_alert.py lines
528-541): build `filtered_data` from `data` with the stated defaults; any
exception (non-dict record, unparsable number) is caught by the per-record
`try`/`except` and the record is skipped (`none`). -/
def parseRecord (i : Nat) (data : Json) : Option LoadedTab :=
  match data with
  | .jobj kvs => do
    let nameJ := (jget kvs keyName).getD (.jstr ("Tab " ++ toString (i + 1)))
    let urlJ := (jget kvs keyUrl).getD (.jstr "")
    let th ← pyInt ((jget kvs keyThreshold).getD (.jint 5))
    let rd ← pyInt ((jget kvs keyResumeDelay).getD (.jint 1))
    let mop ← pyFloat ((jget kvs keyMaxOrderPrice).getD (.jint 100))
    some ⟨nameJ, urlJ, th, rd, mop⟩
  | _ => none

/-- Python `enumerate(x)` over a JSON value: arrays iterate elements, objects
iterate their keys, strings iterate characters; other values raise
`TypeError` (`none`) — and in `load_tabs` that loop sits outside any
`try`/`except`. -/
def pyEnumerate : Json → Option (List Json)
  | .jarr xs => some xs
  | .jobj kvs => some (kvs.map (fun p => .jstr p.1))
  | .jstr s => some (s.data.map (fun c => .jstr (String.mk [c])))
  | _ => none

def enumFrom : Nat → List Json → List (Nat × Json)
  | _, [] => []
  | i, a :: as => (i, a) :: enumFrom (i + 1) as

/-- The default tab produced by `add_tab(name="Tab 1")` in store_alert.py:
`MonitorTab` defaults (threshold 5, resume_delay 1, max_order_price 100),
then — since `from_config` is false — the tab dropdowns are set from the
global dropdowns, whose startup values are "5" and "15". -/
def defaultTab1 : LoadedTab :=
  ⟨.jstr "Tab 1", .jstr "", 5, 15, 100⟩

/-- `MainApp.load_tabs` of store_alert.py (lines 508-541).  A missing file
and a JSON decode error are both handled by creating the single default tab;
per-record failures are skipped.  `Except.error` marks an exception escaping
`load_tabs` (only possible past JSON decoding, from `enumerate` on a
non-iterable value). -/
def load_tabs : ConfigContents → Except Unit (List LoadedTab)
  | .absent => .ok [defaultTab1]
  | .invalid => .ok [defaultTab1]
  | .valid j =>
    match pyEnumerate j with
    | none => .error ()
    | some items => .ok ((enumFrom 0 items).filterMap (fun p => parseRecord p.1 p.2))

/-! ### `MainApp.load_tabs` of store-alert.py (lines 447-462)

No `try`/`except` anywhere: a JSON decode error, a non-dict record, an
unexpected key (a `TypeError` from `add_tab(**tab_data)`) or a non-string
`url` all propagate out of `load_tabs`. -/

def keyAutoMonitor : String := "auto_monitor"

/-- The keyword arguments `MonitorTab.__init__` accepts in store-alert.py. -/
def dashKeys : List String := [keyName, keyUrl, keyThreshold, keyResumeDelay, keyAutoMonitor]

/-- A reconstructed tab of store-alert.py; the constructor stores the record
values without conversion, so the fields stay raw JSON values. -/
structure DashLoadedTab where
  name : Json
  url : Json
  threshold : Json
  resume_delay : Json
  auto_monitor : Json

def dashDefaultTab1 : DashLoadedTab :=
  ⟨.jstr "Tab 1", .jstr "", .jint 5, .jint 1, .jbool false⟩

/-- One record of store-alert.py's `load_tabs`: inject the date range into the
record's `url` (which must be a string, else `AttributeError`), reject
unexpected keyword arguments, and build the tab. -/
def parseDashRecord (tsS tsE : Nat) (data : Json) : Option DashLoadedTab :=
  match data with
  | .jobj kvs =>
    if kvs.all (fun p => dashKeys.contains p.1) then
      match (jget kvs keyUrl).getD (.jstr "") with
      | .jstr u =>
        some ⟨(jget kvs keyName).getD (.jstr "Tab"),
              .jstr (String.mk (inject_date_range_dash tsS tsE u.data)),
              (jget kvs keyThreshold).getD (.jint 5),
              (jget kvs keyResumeDelay).getD (.jint 1),
              (jget kvs keyAutoMonitor).getD (.jbool false)⟩
      | _ => none
    else none
  | _ => none

def load_tabs_dash (tsS tsE : Nat) : ConfigContents → Except Unit (List DashLoadedTab)
  | .absent => .ok [dashDefaultTab1]
  | .invalid => .error ()
  | .valid j =>
    match j with
    | .jarr xs =>
      match xs.mapM (parseDashRecord tsS tsE) with
      | some tabs => .ok tabs
      | none => .error ()
    | _ => .error ()

/-! ## Dropdown plumbing for the threshold invariant

`QComboBox.setCurrentText(v)` on a non-editable combo box selects the item
matching `v` and does nothing when no item matches; the
`currentTextChanged` signal fires only on an actual change and then runs
`int(v)` into the tab field.  The embedding works at the integer level (the
items are `str(i) for i in range(1, 11)`, and `int(str(i)) = i`). -/

def thresholdItems : List Int := [1, 2, 3, 4, 5, 6, 7, 8, 9, 10]

/-- One `setCurrentText` call: state is `(current item, tab field)`. -/
def dropStep (items : List Int) (st : Int × Int) (v : Int) : Int × Int :=
  if v ∈ items ∧ v ≠ st.1 then (v, v) else st

/-- The threshold field of a tab reconstructed from a config record with
threshold `th`: `MonitorTab.init_ui` calls `setCurrentText(str(th))` on a
dropdown whose initial current item is "1", and `add_tab(from_config=True)`
calls `setCurrentText(str(th))` once more. -/
def configThresholdField (th : Int) : Int :=
  (dropStep thresholdItems (dropStep thresholdItems (1, th) th) th).2

/-- The threshold field of a fresh UI tab: `MonitorTab` default 5 through
`init_ui`, then `add_tab(from_config=False)` re-sets the dropdown from the
global threshold dropdown's current value `g`. -/
def newTabThresholdField (g : Int) : Int :=
  (dropStep thresholdItems (dropStep thresholdItems (1, 5) 5) g).2

/-! ## Sample states used by witnesses -/

def sampleTab : TabState :=
  ⟨"KRS", "https://a", "https://a", 5, 3, 100, true, false, true, true, 2, none⟩

/-! ## C9: the scan callback is atomic on malformed input -/

/-- C9: for every `result` that is not a list of exactly 3 elements,
`handle_js_count` returns immediately: the tab state (including
`empty_scan_count`, `paused`, `monitoring` and `last_price_alert_time`) is
unchanged and nothing is emitted. -/
theorem handle_js_count_malformed (now : ℚ) (s : TabState) (result : Option (List ℚ))
    (h : ∀ vals, result = some vals → vals.length ≠ 3) :
    handle_js_count now s result = (s, []) := by
  match result with
  | none => rfl
  | some [] => rfl
  | some [_] => rfl
  | some [_, _] => rfl
  | some [a, b, c] => exact absurd rfl (h [a, b, c] rfl)
  | some (_ :: _ :: _ :: _ :: _) => rfl

/-- Witness for C9 at a concrete malformed result. -/
theorem handle_js_count_malformed_witness :
    handle_js_count 0 sampleTab (some [1, 2]) = (sampleTab, []) ∧
    handle_js_count 0 sampleTab none = (sampleTab, []) :=
  ⟨handle_js_count_malformed 0 sampleTab (some [1, 2])
      (by intro vals h; obtain rfl := (Option.some.inj h).symm; decide),
   handle_js_count_malformed 0 sampleTab none (by intro vals h; cases h)⟩

/-! ## C2: threshold crossing alerts, pauses, and resumes -/

/-- C2: when the scan callback's matching count reaches the threshold, the tab
alerts the user, stops the scan timer and sets `paused`, schedules the resume
for `resume_delay * 60` seconds, and `resume_monitoring` afterwards clears
`paused` and restarts the scan timer exactly when monitoring is still on. -/
theorem handle_js_count_threshold (now : ℚ) (s : TabState) (tc tsum avg : ℚ)
    (h : tc ≥ (s.threshold : ℚ)) :
    (handle_js_count now s (some [tc, tsum, avg])).1.paused = true ∧
    (handle_js_count now s (some [tc, tsum, avg])).1.timerActive = false ∧
    (handle_js_count now s (some [tc, tsum, avg])).1.monitoring = s.monitoring ∧
    Event.alertUser tc ∈ (handle_js_count now s (some [tc, tsum, avg])).2 ∧
    Event.scheduleResume (s.resume_delay * 60) ∈ (handle_js_count now s (some [tc, tsum, avg])).2 ∧
    (resume_monitoring (handle_js_count now s (some [tc, tsum, avg])).1).paused = false ∧
    (s.monitoring = true →
      (resume_monitoring (handle_js_count now s (some [tc, tsum, avg])).1).timerActive = true) := by
  have e : handle_js_count now s (some [tc, tsum, avg]) =
      ((restStep { s with last_price_alert_time := (priceCheck now s tc avg).1 } tc).1,
        (priceCheck now s tc avg).2 ++
          (restStep { s with last_price_alert_time := (priceCheck now s tc avg).1 } tc).2) := rfl
  rw [e, restStep, if_pos h]
  refine ⟨rfl, rfl, rfl, ?_, ?_, rfl, ?_⟩
  · simp [pause_monitoring]
  · simp [pause_monitoring]
  · intro hm
    simp [resume_monitoring, pause_monitoring, hm]

/-- Witness for C2 at a concrete state and count. -/
theorem handle_js_count_threshold_witness :
    (handle_js_count 0 sampleTab (some [6, 12, 2])).1.paused = true ∧
    (handle_js_count 0 sampleTab (some [6, 12, 2])).1.timerActive = false ∧
    (handle_js_count 0 sampleTab (some [6, 12, 2])).1.monitoring = sampleTab.monitoring ∧
    Event.alertUser 6 ∈ (handle_js_count 0 sampleTab (some [6, 12, 2])).2 ∧
    Event.scheduleResume (sampleTab.resume_delay * 60) ∈
      (handle_js_count 0 sampleTab (some [6, 12, 2])).2 ∧
    (resume_monitoring (handle_js_count 0 sampleTab (some [6, 12, 2])).1).paused = false ∧
    (sampleTab.monitoring = true →
      (resume_monitoring (handle_js_count 0 sampleTab (some [6, 12, 2])).1).timerActive = true) :=
  handle_js_count_threshold 0 sampleTab 6 12 2 (by decide)

/-! ## C7: shape of the state persisted at shutdown -/

/-- C7: whatever the previous file contents, `closeEvent` writes a single JSON
array with one record per tab, and every record is an object carrying exactly
the keys `name`, `url`, `threshold`, `resume_delay`, `max_order_price`. -/
theorem closeEvent_persisted_shape (prev : ConfigContents) (tabs : List TabState) :
    closeEventWrite prev tabs = .valid (.jarr (tabs.map get_state)) ∧
    ∀ e ∈ tabs.map get_state, ∃ kvs, e = Json.jobj kvs ∧
      kvs.map Prod.fst = [keyName, keyUrl, keyThreshold, keyResumeDelay, keyMaxOrderPrice] := by
  refine ⟨rfl, ?_⟩
  intro e he
  rcases List.mem_map.mp he with ⟨t, _, rfl⟩
  exact ⟨_, rfl, rfl⟩

/-- Witness for C7 at a concrete tab list. -/
theorem closeEvent_persisted_shape_witness :
    ∃ kvs, get_state sampleTab = Json.jobj kvs ∧
      kvs.map Prod.fst = [keyName, keyUrl, keyThreshold, keyResumeDelay, keyMaxOrderPrice] :=
  (closeEvent_persisted_shape ConfigContents.absent [sampleTab]).2 (get_state sampleTab)
    (by simp)

/-! ## C4: save-then-load round-trips the tab records -/

/-- Reading back a saved record reconstructs the saved fields. -/
theorem parseRecord_get_state (i : Nat) (t : TabState) :
    parseRecord i (get_state t) =
      some ⟨.jstr t.tab_name, .jstr t.original_url, t.threshold, t.resume_delay,
        t.max_order_price⟩ := rfl

theorem enumFrom_parse_map (tabs : List TabState) : ∀ i : Nat,
    (enumFrom i (tabs.map get_state)).filterMap (fun p => parseRecord p.1 p.2) =
      tabs.map (fun t =>
        (⟨.jstr t.tab_name, .jstr t.original_url, t.threshold, t.resume_delay,
          t.max_order_price⟩ : LoadedTab)) := by
  induction tabs with
  | nil => intro i; rfl
  | cons t rest ih =>
    intro i
    simp only [List.map_cons, enumFrom, List.filterMap_cons, parseRecord_get_state, ih]

/-- C4: the JSON list written by `closeEvent`, read back by `load_tabs`,
reconstructs the same number of tabs with the same `name`, `threshold`,
`resume_delay` and `max_order_price` (and the same original URL). -/
theorem save_load_roundtrip (prev : ConfigContents) (tabs : List TabState) :
    load_tabs (closeEventWrite prev tabs) =
      .ok (tabs.map (fun t =>
        (⟨.jstr t.tab_name, .jstr t.original_url, t.threshold, t.resume_delay,
          t.max_order_price⟩ : LoadedTab))) ∧
    (tabs.map (fun t =>
        (⟨.jstr t.tab_name, .jstr t.original_url, t.threshold, t.resume_delay,
          t.max_order_price⟩ : LoadedTab))).length = tabs.length := by
  constructor
  · show Except.ok ((enumFrom 0 (tabs.map get_state)).filterMap (fun p => parseRecord p.1 p.2)) = _
    rw [enumFrom_parse_map]
  · simp

/-! ## C5: behaviour of startup on a config file that is not valid JSON -/

/-- C5 counterexample: in store-alert.py, `load_tabs` has no handler around
`json.load`, so the decode error propagates out of `load_tabs`. -/
theorem load_tabs_dash_invalid_cex :
    load_tabs_dash 0 0 ConfigContents.invalid = Except.error () := rfl

/-- C5 amended: in store_alert.py, `load_tabs` catches the JSON decode error
(and the missing file) and creates the single default tab named "Tab 1" with
no exception escaping; in store-alert.py the decode error propagates. -/
theorem load_tabs_invalid_behavior :
    load_tabs ConfigContents.invalid = .ok [defaultTab1] ∧
    load_tabs ConfigContents.absent = .ok [defaultTab1] ∧
    defaultTab1.name = .jstr "Tab 1" ∧
    ∀ tsS tsE, load_tabs_dash tsS tsE ConfigContents.invalid = Except.error () :=
  ⟨rfl, rfl, rfl, fun _ _ => rfl⟩

/-! ## C3: the threshold-at-least-1 invariant -/

/-- A config record carrying threshold 0. -/
def badRecord : Json :=
  .jobj [(keyName, .jstr "T"), (keyUrl, .jstr ""), (keyThreshold, .jint 0),
         (keyResumeDelay, .jint 1), (keyMaxOrderPrice, .jint 100)]

/-- C3 counterexample: a config record with threshold 0 is loaded unclamped,
and the reconstructed tab's dropdown plumbing leaves the field at 0, so the
invariant `threshold ≥ 1` fails for a tab reconstructed from the config
file. -/
theorem threshold_invariant_cex :
    (load_tabs (.valid (.jarr [badRecord]))).map (fun l => l.map LoadedTab.threshold) =
      .ok [0] ∧
    configThresholdField 0 = 0 ∧ ¬ (1 ≤ configThresholdField 0) :=
  ⟨rfl, rfl, by decide⟩

/-- C3 amended: thresholds coming from the UI are always in 1..10 — a fresh
tab created with any global-dropdown value has threshold at least 1, and a
dropdown selection either sets the field to the selected item (at least 1) or
leaves it unchanged — but a tab reconstructed from a config record keeps the
record's integer threshold unclamped, so the invariant holds there only when
the record's value is at least 1. -/
theorem threshold_invariant_amended :
    (∀ g ∈ thresholdItems, 1 ≤ newTabThresholdField g) ∧
    (∀ cur fld v, v ∈ thresholdItems → 1 ≤ v ∧
      ((dropStep thresholdItems (cur, fld) v).2 = v ∨
        (dropStep thresholdItems (cur, fld) v).2 = fld)) ∧
    (∀ th : Int, configThresholdField th = th) := by
  refine ⟨?_, ?_, ?_⟩
  · intro g hg
    have h1 : (1 : Int) ≤ g := by fin_cases hg <;> decide
    have hinner : dropStep thresholdItems (1, 5) 5 = (5, 5) := by decide
    unfold newTabThresholdField
    rw [hinner]
    unfold dropStep
    by_cases hc : g ∈ thresholdItems ∧ g ≠ (5, 5).1
    · rw [if_pos hc]; exact h1
    · rw [if_neg hc]; decide
  · intro cur fld v hv
    have h1 : (1 : Int) ≤ v := by fin_cases hv <;> decide
    refine ⟨h1, ?_⟩
    unfold dropStep
    split
    · exact Or.inl rfl
    · exact Or.inr rfl
  · intro th
    unfold configThresholdField dropStep
    by_cases h1 : th ∈ thresholdItems ∧ th ≠ (1, th).1
    · rw [if_pos h1]
      by_cases h2 : th ∈ thresholdItems ∧ th ≠ (th, th).1
      · rw [if_pos h2]
      · rw [if_neg h2]
    · rw [if_neg h1]
      by_cases h2 : th ∈ thresholdItems ∧ th ≠ (1, th).1
      · rw [if_pos h2]
      · rw [if_neg h2]

/-- Witness for C3 (amended) at a concrete dropdown selection. -/
theorem threshold_invariant_amended_witness :
    1 ≤ newTabThresholdField 7 :=
  threshold_invariant_amended.1 7 (by decide)

/-! ## C1: what count is compared against the threshold -/

/-- A page text containing exactly five occurrences of the marker. -/
def tex5 : String := "ACCEPTEDACCEPTEDACCEPTEDACCEPTEDACCEPTED"

/-- A page text containing exactly six occurrences of the marker. -/
def tex6 : String := "ACCEPTEDACCEPTEDACCEPTEDACCEPTEDACCEPTEDACCEPTED"

/-- A page text containing exactly one occurrence of the marker. -/
def tex1 : String := "ACCEPTED"

def dashSample : DashTab := ⟨5, 1, 0, true, false, true⟩

/-- C1 counterexample: a text with exactly 5 occurrences of "ACCEPTED" at
threshold 5 does not take the alert-and-pause path, although the occurrence
count equals the threshold — the code compares `text.count("ACCEPTED") - 1`,
not the occurrence count itself. -/
theorem count_threshold_cex :
    pyCount acceptedStr tex5 = 5 ∧ dashSample.threshold = 5 ∧
    (process_text dashSample tex5).1.paused = false ∧
    ¬ (((process_text dashSample tex5).1.paused = true) ↔
        (5 : Nat) ≤ pyCount acceptedStr tex5) := by
  refine ⟨by decide, rfl, by decide, ?_⟩
  intro hiff
  exact absurd (hiff.mpr (by decide)) (by decide)

/-- C1 amended: the scan counts the occurrences of "ACCEPTED" in the page text
and subtracts one, and takes the alert-and-pause path (notification emitted,
polling paused for `resume_delay * 60` seconds) exactly when that value is at
least the threshold. -/
theorem count_threshold_amended (s : DashTab) (text : String) :
    (Event.notifyDash ((pyCount acceptedStr text : Int) - 1) ∈ (process_text s text).2 ↔
      (pyCount acceptedStr text : Int) - 1 ≥ s.threshold) ∧
    ((pyCount acceptedStr text : Int) - 1 ≥ s.threshold →
      (process_text s text).1.paused = true ∧
      (process_text s text).1.timerActive = false ∧
      Event.scheduleResume (s.resume_delay * 60) ∈ (process_text s text).2) := by
  by_cases h : (pyCount acceptedStr text : Int) - 1 ≥ s.threshold
  · constructor
    · simp [process_text, dashPause, if_pos h, h]
    · intro _
      refine ⟨?_, ?_, ?_⟩ <;> simp [process_text, dashPause, if_pos h]
  · constructor
    · rw [iff_false_intro h, iff_false]
      unfold process_text dashPause
      rw [if_neg h]
      split
      · dsimp only
        split <;> simp
      · simp
    · intro hc
      exact absurd hc h

/-- Witness for C1 (amended) at a concrete text crossing the threshold. -/
theorem count_threshold_amended_witness :
    (process_text dashSample tex6).1.paused = true ∧
    (process_text dashSample tex6).1.timerActive = false ∧
    Event.scheduleResume (dashSample.resume_delay * 60) ∈ (process_text dashSample tex6).2 :=
  (count_threshold_amended dashSample tex6).2 (by decide)

/-! ## C6: the consecutive-empty-scan counter -/

def dashSample4 : DashTab := ⟨5, 1, 4, true, false, true⟩

def sampleTab4 : TabState :=
  ⟨"KRS", "https://a", "https://a", 5, 3, 100, true, false, true, true, 4, none⟩

/-- C6 counterexample: in store-alert.py / bk.py a fifth consecutive empty
scan (count 0, i.e. exactly one "ACCEPTED" occurrence) merely raises the
counter to 5 — the pause only happens at `MAX_EMPTY_SCANS = 10`. -/
theorem empty_scan_cex :
    (process_text dashSample4 tex1).1.empty_scans = 5 ∧
    (process_text dashSample4 tex1).1.paused = false ∧
    (process_text dashSample4 tex1).2 = [] := by
  refine ⟨by decide, by decide, by decide⟩

/-- C6 amended: on a monitoring, non-paused tab each zero-match scan
increments the empty-scan counter and any nonzero count below the threshold
resets it to 0; the counter threshold that pauses polling for 180 seconds and
resets the counter is 5 in store_alert.py's `handle_js_count` but 10
(`MAX_EMPTY_SCANS`) in store-alert.py's / bk.py's `process_text`. -/
theorem empty_scan_amended :
    (∀ (now : ℚ) (s : TabState) (tsum avg : ℚ), 0 < s.threshold →
      s.monitoring = true → s.paused = false →
      (s.empty_scan_count + 1 ≥ 5 →
        (handle_js_count now s (some [0, tsum, avg])).1.empty_scan_count = 0 ∧
        (handle_js_count now s (some [0, tsum, avg])).1.paused = true ∧
        (handle_js_count now s (some [0, tsum, avg])).1.timerActive = false ∧
        Event.scheduleResume 180 ∈ (handle_js_count now s (some [0, tsum, avg])).2) ∧
      (s.empty_scan_count + 1 < 5 →
        (handle_js_count now s (some [0, tsum, avg])).1.empty_scan_count =
          s.empty_scan_count + 1 ∧
        (handle_js_count now s (some [0, tsum, avg])).1.paused = false)) ∧
    (∀ (now : ℚ) (s : TabState) (tc tsum avg : ℚ), tc ≠ 0 → tc < (s.threshold : ℚ) →
      (handle_js_count now s (some [tc, tsum, avg])).1.empty_scan_count = 0) ∧
    (∀ (s : DashTab) (text : String), 0 < s.threshold →
      (pyCount acceptedStr text : Int) - 1 = 0 →
      (s.empty_scans + 1 ≥ 10 →
        (process_text s text).1.empty_scans = 0 ∧
        (process_text s text).1.paused = true ∧
        Event.scheduleResume 180 ∈ (process_text s text).2) ∧
      (s.empty_scans + 1 < 10 →
        (process_text s text).1.empty_scans = s.empty_scans + 1 ∧
        (process_text s text).1.paused = s.paused)) ∧
    (∀ (s : DashTab) (text : String),
      (pyCount acceptedStr text : Int) - 1 ≠ 0 →
      (pyCount acceptedStr text : Int) - 1 < s.threshold →
      (process_text s text).1.empty_scans = 0) := by
  refine ⟨?_, ?_, ?_, ?_⟩
  · intro now s tsum avg hth hm hp
    have hnotge : ¬ ((0 : ℚ) ≥ ((s.threshold : Int) : ℚ)) := by
      rw [not_le]
      exact_mod_cast hth
    have e : handle_js_count now s (some [0, tsum, avg]) =
        ((restStep { s with last_price_alert_time := (priceCheck now s 0 avg).1 } 0).1,
          (priceCheck now s 0 avg).2 ++
            (restStep { s with last_price_alert_time := (priceCheck now s 0 avg).1 } 0).2) := rfl
    rw [e, restStep, if_neg hnotge, if_pos (by exact ⟨rfl, hm, hp⟩)]
    constructor
    · intro h5
      rw [if_pos (by exact h5)]
      refine ⟨rfl, rfl, rfl, by simp [pause_monitoring]⟩
    · intro h5
      rw [if_neg (by exact not_le.mpr h5)]
      exact ⟨rfl, hp⟩
  · intro now s tc tsum avg htc hlt
    have hnotge : ¬ (tc ≥ ((s.threshold : Int) : ℚ)) := not_le.mpr hlt
    have e : handle_js_count now s (some [tc, tsum, avg]) =
        ((restStep { s with last_price_alert_time := (priceCheck now s tc avg).1 } tc).1,
          (priceCheck now s tc avg).2 ++
            (restStep { s with last_price_alert_time := (priceCheck now s tc avg).1 } tc).2) := rfl
    rw [e, restStep, if_neg hnotge,
      if_neg (by intro hc; exact htc hc.1)]
  · intro s text hth h0
    have hnotge : ¬ ((pyCount acceptedStr text : Int) - 1 ≥ s.threshold) := by
      rw [h0, not_le]
      exact hth
    unfold process_text dashPause
    rw [if_neg hnotge, if_pos h0]
    constructor
    · intro h10
      rw [if_pos (by exact h10)]
      exact ⟨rfl, rfl, by simp⟩
    · intro h10
      rw [if_neg (by exact not_le.mpr h10)]
      exact ⟨rfl, rfl⟩
  · intro s text htc hlt
    unfold process_text dashPause
    rw [if_neg (not_le.mpr hlt), if_neg htc]

/-- Witness for C6 (amended): a fifth empty scan in store_alert.py pauses for
180 seconds and resets the counter. -/
theorem empty_scan_amended_witness :
    (handle_js_count 0 sampleTab4 (some [0, 0, 0])).1.empty_scan_count = 0 ∧
    (handle_js_count 0 sampleTab4 (some [0, 0, 0])).1.paused = true ∧
    (handle_js_count 0 sampleTab4 (some [0, 0, 0])).1.timerActive = false ∧
    Event.scheduleResume 180 ∈ (handle_js_count 0 sampleTab4 (some [0, 0, 0])).2 :=
  ((empty_scan_amended.1 0 sampleTab4 0 0 (by decide) rfl rfl).1 (by decide))

/-! ## C10: price-limit alerts and their 120-second separation -/

def isPriceLog : Event → Bool
  | .priceLog _ _ _ => true
  | _ => false

/-- The timestamps at which price-limit alerts are logged along a run of scan
callbacks: each input is the wall-clock time of the callback and the JS
result it delivers. -/
def priceAlertTimes (s : TabState) : List (ℚ × Option (List ℚ)) → List ℚ
  | [] => []
  | (t, r) :: rest =>
    (if (handle_js_count t s r).2.any isPriceLog then [t] else []) ++
      priceAlertTimes (handle_js_count t s r).1 rest

/-- `priceAlertSep a b` says alerts at times `a` then `b` are at least 120
seconds apart. -/
def priceAlertSep (a b : ℚ) : Prop := (120 : ℚ) ≤ qsub b a

theorem restStep_no_priceLog (s : TabState) (tc : ℚ) :
    (restStep s tc).2.any isPriceLog = false := by
  unfold restStep pause_monitoring
  by_cases h1 : tc ≥ (s.threshold : ℚ)
  · rw [if_pos h1]; rfl
  · rw [if_neg h1]
    by_cases h2 : tc = 0 ∧ s.monitoring = true ∧ s.paused = false
    · rw [if_pos h2]
      dsimp only
      by_cases h3 : s.empty_scan_count + 1 ≥ 5
      · rw [if_pos h3]; rfl
      · rw [if_neg h3]; rfl
    · rw [if_neg h2]; rfl

theorem restStep_preserves_last (s : TabState) (tc : ℚ) :
    (restStep s tc).1.last_price_alert_time = s.last_price_alert_time := by
  unfold restStep pause_monitoring
  by_cases h1 : tc ≥ (s.threshold : ℚ)
  · rw [if_pos h1]
  · rw [if_neg h1]
    by_cases h2 : tc = 0 ∧ s.monitoring = true ∧ s.paused = false
    · rw [if_pos h2]
      dsimp only
      by_cases h3 : s.empty_scan_count + 1 ≥ 5
      · rw [if_pos h3]
      · rw [if_neg h3]
    · rw [if_neg h2]

theorem priceCheck_fired (now : ℚ) (s : TabState) (tc avg : ℚ)
    (h : (priceCheck now s tc avg).2.any isPriceLog = true) :
    (priceCheck now s tc avg).1 = some now ∧
    (round2 avg ≥ round2 s.max_order_price ∧ tc > 0) ∧
    (∀ t0, s.last_price_alert_time = some t0 → qsub now t0 ≥ 120) := by
  unfold priceCheck at h ⊢
  split_ifs at h ⊢ with hcond
  · rcases hlast : s.last_price_alert_time with _ | t0
    · exact ⟨rfl, hcond, by intro t0 ht0; cases ht0⟩
    · rw [hlast] at h
      dsimp only at h ⊢
      by_cases h120 : qsub now t0 ≥ 120
      · rw [if_pos h120]
        exact ⟨rfl, hcond, by intro t1 ht1; cases ht1; exact h120⟩
      · rw [if_neg h120] at h
        simp [isPriceLog] at h
  · simp at h

theorem priceCheck_not_fired (now : ℚ) (s : TabState) (tc avg : ℚ)
    (h : (priceCheck now s tc avg).2.any isPriceLog = false) :
    (priceCheck now s tc avg).1 = s.last_price_alert_time := by
  unfold priceCheck at h ⊢
  split_ifs at h ⊢ with hcond
  · rcases hlast : s.last_price_alert_time with _ | t0
    · rw [hlast] at h
      simp [isPriceLog] at h
    · rw [hlast] at h
      dsimp only at h ⊢
      by_cases h120 : qsub now t0 ≥ 120
      · rw [if_pos h120] at h
        simp [isPriceLog] at h
      · rw [if_neg h120]
  · rfl

/-- Along a whole callback, a fired price alert stamps the current time into
`last_price_alert_time`, an unfired one leaves it alone, and firing with a
previous stamp requires at least 120 elapsed seconds. -/
theorem handle_js_count_last (now : ℚ) (s : TabState) (r : Option (List ℚ)) :
    ((handle_js_count now s r).2.any isPriceLog = true →
      (handle_js_count now s r).1.last_price_alert_time = some now ∧
      (∀ t0, s.last_price_alert_time = some t0 → qsub now t0 ≥ 120)) ∧
    ((handle_js_count now s r).2.any isPriceLog = false →
      (handle_js_count now s r).1.last_price_alert_time = s.last_price_alert_time) := by
  match r with
  | none => exact ⟨(fun h => nomatch h), fun _ => rfl⟩
  | some [] => exact ⟨(fun h => nomatch h), fun _ => rfl⟩
  | some [_] => exact ⟨(fun h => nomatch h), fun _ => rfl⟩
  | some [_, _] => exact ⟨(fun h => nomatch h), fun _ => rfl⟩
  | some (_ :: _ :: _ :: _ :: _) => exact ⟨(fun h => nomatch h), fun _ => rfl⟩
  | some [tc, tsum, avg] =>
    have e : handle_js_count now s (some [tc, tsum, avg]) =
        ((restStep { s with last_price_alert_time := (priceCheck now s tc avg).1 } tc).1,
          (priceCheck now s tc avg).2 ++
            (restStep { s with last_price_alert_time := (priceCheck now s tc avg).1 } tc).2) :=
      rfl
    rw [e]
    have hr : ((priceCheck now s tc avg).2 ++
        (restStep { s with last_price_alert_time := (priceCheck now s tc avg).1 } tc).2).any
          isPriceLog = (priceCheck now s tc avg).2.any isPriceLog := by
      rw [List.any_append, restStep_no_priceLog, Bool.or_false]
    rw [hr, restStep_preserves_last]
    constructor
    · intro h
      rcases priceCheck_fired now s tc avg h with ⟨h1, _, h3⟩
      exact ⟨h1, h3⟩
    · intro h
      rw [priceCheck_not_fired now s tc avg h]

/-- Core induction for the 120-second separation: the alert times of any run
form a `priceAlertSep` chain, and when a previous alert time is stamped every
later alert is at least 120 seconds after it. -/
theorem priceAlertTimes_chain (inputs : List (ℚ × Option (List ℚ))) : ∀ s : TabState,
    List.Chain' priceAlertSep (priceAlertTimes s inputs) ∧
    (∀ t0, s.last_price_alert_time = some t0 →
      ∀ a ∈ priceAlertTimes s inputs, priceAlertSep t0 a) := by
  induction inputs with
  | nil => exact fun s => ⟨List.chain'_nil, by intro t0 _ a ha; cases ha⟩
  | cons p rest ih =>
    obtain ⟨t, r⟩ := p
    intro s
    have ihh := ih (handle_js_count t s r).1
    by_cases hf : (handle_js_count t s r).2.any isPriceLog = true
    · have hstep := (handle_js_count_last t s r).1 hf
      have heq : priceAlertTimes s ((t, r) :: rest) =
          t :: priceAlertTimes (handle_js_count t s r).1 rest := by
        simp only [priceAlertTimes]
        rw [hf]
        simp
      have htail : ∀ a ∈ priceAlertTimes (handle_js_count t s r).1 rest, priceAlertSep t a :=
        ihh.2 t hstep.1
      constructor
      · rw [heq, List.chain'_cons']
        refine ⟨?_, ihh.1⟩
        intro y hy
        exact htail y (List.mem_of_mem_head? hy)
      · intro t0 h0 a ha
        rw [heq] at ha
        rcases List.mem_cons.mp ha with rfl | ha
        · exact hstep.2 t0 h0
        · have h1 : priceAlertSep t a := htail a ha
          have h2 : priceAlertSep t0 t := hstep.2 t0 h0
          unfold priceAlertSep at h1 h2 ⊢
          rw [qsub_eq_sub] at h1 h2 ⊢
          linarith
    · have hf' : (handle_js_count t s r).2.any isPriceLog = false :=
        Bool.not_eq_true _ ▸ Bool.of_not_eq_true hf
      have hstep := (handle_js_count_last t s r).2 hf'
      have heq : priceAlertTimes s ((t, r) :: rest) =
          priceAlertTimes (handle_js_count t s r).1 rest := by
        simp only [priceAlertTimes]
        rw [hf']
        simp
      constructor
      · rw [heq]; exact ihh.1
      · intro t0 h0 a ha
        rw [heq] at ha
        exact ihh.2 t0 (by rw [hstep]; exact h0) a ha

theorem priceAlertSep_chain_pairwise :
    ∀ l : List ℚ, List.Chain' priceAlertSep l → List.Pairwise priceAlertSep l := by
  have hall : ∀ (l : List ℚ) (a : ℚ), List.Chain' priceAlertSep (a :: l) →
      ∀ b ∈ l, priceAlertSep a b := by
    intro l
    induction l with
    | nil => intro a _ b hb; cases hb
    | cons c l' ih =>
      intro a hch b hb
      rw [List.chain'_cons] at hch
      rcases List.mem_cons.mp hb with rfl | hb
      · exact hch.1
      · have h1 := ih c hch.2 b hb
        have h2 := hch.1
        unfold priceAlertSep at h1 h2 ⊢
        rw [qsub_eq_sub] at h1 h2 ⊢
        linarith
  intro l
  induction l with
  | nil => intro _; exact List.Pairwise.nil
  | cons a l' ih =>
    intro hch
    exact List.Pairwise.cons (hall l' a hch) (ih (List.chain'_cons'.mp hch).2)

/-- C10: a price-limit alert is logged only when the rounded average order
price is at least the rounded `max_order_price` and the matching count is
positive; and along any run of scan callbacks the logged price-alert times are
pairwise at least 120 seconds apart. -/
theorem price_alert_conditions :
    (∀ (now : ℚ) (s : TabState) (r : Option (List ℚ)),
      (handle_js_count now s r).2.any isPriceLog = true →
      ∃ tc tsum avg, r = some [tc, tsum, avg] ∧
        round2 avg ≥ round2 s.max_order_price ∧ tc > 0) ∧
    (∀ (s : TabState) (inputs : List (ℚ × Option (List ℚ))),
      List.Pairwise priceAlertSep (priceAlertTimes s inputs)) := by
  constructor
  · intro now s r h
    match r with
    | none => cases h
    | some [] => cases h
    | some [_] => cases h
    | some [_, _] => cases h
    | some (_ :: _ :: _ :: _ :: _) => cases h
    | some [tc, tsum, avg] =>
      have hr : ((priceCheck now s tc avg).2 ++
          (restStep { s with last_price_alert_time := (priceCheck now s tc avg).1 } tc).2).any
            isPriceLog = (priceCheck now s tc avg).2.any isPriceLog := by
        rw [List.any_append, restStep_no_priceLog, Bool.or_false]
      have h' : (priceCheck now s tc avg).2.any isPriceLog = true := by
        rw [← hr]; exact h
      exact ⟨tc, tsum, avg, rfl, (priceCheck_fired now s tc avg h').2.1⟩
  · intro s inputs
    exact priceAlertSep_chain_pairwise _ (priceAlertTimes_chain inputs s).1

/-- A tab state and input trace for the C10 witness: the middle callback
comes only 100 seconds after the first alert and is suppressed; the third
comes 200 seconds after and fires. -/
def w10tab : TabState := ⟨"W", "", "", 100, 1, 50, true, false, true, true, 0, none⟩

def w10inputs : List (ℚ × Option (List ℚ)) :=
  [(0, some [1, 60, 60]), (100, some [1, 60, 60]), (200, some [1, 60, 60])]

/-- Witness for C10: on the concrete trace the logged alert times are 0 and
200, and they are pairwise at least 120 seconds apart. -/
theorem price_alert_conditions_witness :
    priceAlertTimes w10tab w10inputs = [0, 200] ∧
    (handle_js_count 0 w10tab (some [1, 60, 60])).2.any isPriceLog = true ∧
    List.Pairwise priceAlertSep (priceAlertTimes w10tab w10inputs) :=
  ⟨by decide, by decide, price_alert_conditions.2 w10tab w10inputs⟩

/-! ## C8: repeated application of `_inject_date_range` at a fixed clock

Character-level facts about the rendered parameter, then identity / stripping
lemmas for each `re.sub` scanner, then the behaviour of one and two
applications of both revisions. -/

def httpsPre : List Char := "https://".data

/-- URLs covered by the idempotence statement: `https://` followed by
characters that are not `u`, `&`, `?` or digits (so no part of the query
machinery or of the stripped literal occurs in them). -/
def urlSafe (w : List Char) : Prop :=
  ∀ c ∈ w, c ≠ 'u' ∧ c ≠ '&' ∧ c ≠ '?' ∧ c.isDigit = false

theorem digitChar10_isDigit (d : Nat) : (digitChar10 d).isDigit = true := by
  unfold digitChar10
  split_ifs <;> rfl

theorem natToDecAux_digits : ∀ (fuel n : Nat), ∀ c ∈ natToDecAux fuel n, c.isDigit = true := by
  intro fuel
  induction fuel with
  | zero => intro n c hc; cases hc
  | succ f ih =>
    intro n c hc
    unfold natToDecAux at hc
    by_cases hn : n < 10
    · rw [if_pos hn] at hc
      rcases List.mem_singleton.mp hc with rfl
      exact digitChar10_isDigit n
    · rw [if_neg hn] at hc
      rcases List.mem_append.mp hc with hc | hc
      · exact ih (n / 10) c hc
      · rcases List.mem_singleton.mp hc with rfl
        exact digitChar10_isDigit (n % 10)

theorem natToDec_digits (n : Nat) : ∀ c ∈ natToDec n, c.isDigit = true :=
  natToDecAux_digits (n + 1) n

theorem digit_ne_special (c : Char) (h : c.isDigit = true) :
    c ≠ 'u' ∧ c ≠ '&' ∧ c ≠ '?' := by
  refine ⟨?_, ?_, ?_⟩ <;> (rintro rfl; exact absurd h (by decide))

theorem litDR_facts : ∀ c ∈ litDR, c ≠ '&' ∧ c ≠ '?' ∧ isAmpQ c = false := by decide

theorem httpsPre_facts :
    ∀ c ∈ httpsPre, c ≠ 'u' ∧ c ≠ '&' ∧ c ≠ '?' ∧ c.isDigit = false := by decide

theorem dateParam_no_amp (tsS tsE : Nat) : ∀ c ∈ dateParam tsS tsE, c ≠ '&' := by
  intro c hc
  unfold dateParam at hc
  rcases List.mem_append.mp hc with hc | hc
  · rcases List.mem_append.mp hc with hc | hc
    · rcases List.mem_append.mp hc with hc | hc
      · exact (litDR_facts c hc).1
      · exact (digit_ne_special c (natToDec_digits tsS c hc)).2.1
    · rcases List.mem_singleton.mp hc with rfl
      decide
  · exact (digit_ne_special c (natToDec_digits tsE c hc)).2.1

/-- Characters of `https://w` with `urlSafe w`. -/
theorem safeUrl_chars (w : List Char) (hw : urlSafe w) :
    ∀ c ∈ httpsPre ++ w, c ≠ 'u' ∧ c ≠ '&' ∧ c ≠ '?' ∧ c.isDigit = false := by
  intro c hc
  rcases List.mem_append.mp hc with hc | hc
  · exact httpsPre_facts c hc
  · exact hw c hc

/-! ### `stripDR` -/

theorem stripDR_nil : ∀ fuel, stripDR fuel [] = [] := by
  intro fuel
  cases fuel <;> rfl

theorem litDR_not_prefix (c : Char) (rest : List Char) (hc : c ≠ 'u') :
    litDR.isPrefixOf (c :: rest) = false := by
  have e : litDR.isPrefixOf (c :: rest) =
      (('u' == c) && ("pdates_list_dateRange[]=".data).isPrefixOf rest) := rfl
  rw [e, beq_eq_false_iff_ne.mpr (Ne.symm hc), Bool.false_and]

theorem stripDR_noU : ∀ (fuel : Nat) (s : List Char), s.length ≤ fuel →
    (∀ c ∈ s, c ≠ 'u') → stripDR fuel s = s := by
  intro fuel
  induction fuel with
  | zero => intro s _ _; cases s <;> rfl
  | succ f ih =>
    intro s hlen hs
    match s with
    | [] => rfl
    | c :: rest =>
      have hc : c ≠ 'u' := (hs c (List.mem_cons_self c rest))
      show stripDR (f + 1) (c :: rest) = c :: rest
      simp only [stripDR, litDR_not_prefix c rest hc]
      rw [if_neg (by simp)]
      exact congrArg (c :: ·)
        (ih rest (by simpa using Nat.lt_succ_iff.mp (Nat.lt_of_lt_of_le (by simp) hlen))
          (fun x hx => hs x (List.mem_cons_of_mem c hx)))

theorem isPrefixOf_self_append : ∀ (l t : List Char), l.isPrefixOf (l ++ t) = true := by
  intro l t
  induction l with
  | nil => simp [List.isPrefixOf]
  | cons a as ih => simp [List.isPrefixOf, ih]

theorem dropWhile_ne_amp (V : List Char) (hV : ∀ c ∈ V, c ≠ '&') :
    V.dropWhile (fun x => x != '&') = [] := by
  rw [List.dropWhile_eq_nil_iff]
  intro x hx
  simp [hV x hx]

theorem stripDR_lit (fuel : Nat) (V : List Char) (hfuel : 1 ≤ fuel)
    (hV : ∀ c ∈ V, c ≠ '&') : stripDR fuel (litDR ++ V) = [] := by
  match fuel with
  | 0 => omega
  | f + 1 =>
    have e : litDR ++ V = 'u' :: ("pdates_list_dateRange[]=".data ++ V) := rfl
    rw [e]
    have hp : litDR.isPrefixOf ('u' :: ("pdates_list_dateRange[]=".data ++ V)) = true :=
      isPrefixOf_self_append litDR V
    simp only [stripDR, hp]
    rw [if_pos trivial]
    have e2 : (('u' :: ("pdates_list_dateRange[]=".data ++ V)).drop litDR.length) = V := rfl
    rw [e2, dropWhile_ne_amp V hV]
    exact stripDR_nil f

theorem stripDR_param : ∀ (s : List Char) (fuel : Nat) (V : List Char),
    (s ++ (litDR ++ V)).length ≤ fuel → (∀ c ∈ s, c ≠ 'u') → (∀ c ∈ V, c ≠ '&') →
    stripDR fuel (s ++ (litDR ++ V)) = s := by
  intro s
  induction s with
  | nil =>
    intro fuel V hlen _ hV
    have h25 : litDR.length = 25 := rfl
    refine stripDR_lit fuel V ?_ hV
    simp only [List.nil_append, List.length_append, h25] at hlen
    omega
  | cons c s' ih =>
    intro fuel V hlen hs hV
    match fuel with
    | 0 => simp at hlen
    | f + 1 =>
      have hc : c ≠ 'u' := hs c (List.mem_cons_self c s')
      rw [List.cons_append]
      show stripDR (f + 1) (c :: (s' ++ (litDR ++ V))) = c :: s'
      simp only [stripDR, litDR_not_prefix c _ hc]
      rw [if_neg (by simp)]
      exact congrArg (c :: ·)
        (ih f V (by simp at hlen ⊢; omega) (fun x hx => hs x (List.mem_cons_of_mem c hx)) hV)

/-! ### `stripTS` -/

theorem digits13_nil : digits13 [] = false := rfl

theorem digits13_cons_false (c : Char) (r : List Char) (hc : c.isDigit = false) :
    digits13 (c :: r) = false := by
  unfold digits13
  have e : (13 : Nat) = 12 + 1 := rfl
  rw [e, List.take_succ_cons, List.all_cons, hc, Bool.false_and, Bool.and_false]

theorem matchTS_none (c : Char) (rest : List Char)
    (h : ∀ x ∈ c :: rest, x.isDigit = false) : matchTS (c :: rest) = none := by
  have hd : digits13 rest = false := by
    match rest with
    | [] => rfl
    | d :: r' => exact digits13_cons_false d r' (h d (by simp))
  have hc : digits13 (c :: rest) = false :=
    digits13_cons_false c rest (h c (by simp))
  simp only [matchTS]
  rw [hd, hc]
  simp

theorem stripTS_noDigit : ∀ (fuel : Nat) (s : List Char), s.length ≤ fuel →
    (∀ c ∈ s, c.isDigit = false) → stripTS fuel s = s := by
  intro fuel
  induction fuel with
  | zero => intro s _ _; cases s <;> rfl
  | succ f ih =>
    intro s hlen hs
    match s with
    | [] => rfl
    | c :: rest =>
      show stripTS (f + 1) (c :: rest) = c :: rest
      simp only [stripTS, matchTS_none c rest hs]
      exact congrArg (c :: ·)
        (ih rest (by simp at hlen; omega) (fun x hx => hs x (List.mem_cons_of_mem c hx)))

/-! ### `sub3scan` -/

theorem sub3scan_nil : ∀ fuel, sub3scan fuel [] = [] := by
  intro fuel
  cases fuel <;> rfl

theorem sub3match_not_ampq (c : Char) (rest : List Char) (hc : isAmpQ c = false) :
    sub3match (c :: rest) = none := by
  simp only [sub3match]
  rw [hc]
  simp

theorem sub3scan_noAmpQ : ∀ (fuel : Nat) (s : List Char), s.length ≤ fuel →
    (∀ c ∈ s, isAmpQ c = false) → sub3scan fuel s = s := by
  intro fuel
  induction fuel with
  | zero => intro s _ _; cases s <;> rfl
  | succ f ih =>
    intro s hlen hs
    match s with
    | [] => rfl
    | c :: rest =>
      show sub3scan (f + 1) (c :: rest) = c :: rest
      simp only [sub3scan, sub3match_not_ampq c rest (hs c (by simp))]
      exact congrArg (c :: ·)
        (ih rest (by simp at hlen; omega) (fun x hx => hs x (List.mem_cons_of_mem c hx)))

theorem sub3match_singleton_qm : sub3match ['?'] = some 1 := rfl

theorem sub3scan_dropTrailingQ : ∀ (s : List Char) (fuel : Nat),
    (s ++ ['?']).length ≤ fuel → (∀ c ∈ s, isAmpQ c = false) →
    sub3scan fuel (s ++ ['?']) = s := by
  intro s
  induction s with
  | nil =>
    intro fuel hlen _
    match fuel with
    | 0 => simp at hlen
    | f + 1 =>
      show sub3scan (f + 1) ['?'] = []
      simp only [sub3scan, sub3match_singleton_qm]
      exact sub3scan_nil f
  | cons c s' ih =>
    intro fuel hlen hs
    match fuel with
    | 0 => simp at hlen
    | f + 1 =>
      rw [List.cons_append]
      show sub3scan (f + 1) (c :: (s' ++ ['?'])) = c :: s'
      simp only [sub3scan, sub3match_not_ampq c _ (hs c (by simp))]
      exact congrArg (c :: ·)
        (ih f (by simp at hlen ⊢; omega) (fun x hx => hs x (List.mem_cons_of_mem c hx)))

/-! ### `collapseAmp` and `contains` -/

theorem collapseAmp_noAmp : ∀ (fuel : Nat) (s : List Char), s.length ≤ fuel →
    (∀ c ∈ s, c ≠ '&') → collapseAmp fuel s = s := by
  intro fuel
  induction fuel with
  | zero => intro s _ _; cases s <;> rfl
  | succ f ih =>
    intro s hlen hs
    match s with
    | [] => rfl
    | c :: rest =>
      show collapseAmp (f + 1) (c :: rest) = c :: rest
      unfold collapseAmp
      rw [if_neg (hs c (by simp))]
      exact congrArg (c :: ·)
        (ih rest (by simp at hlen; omega) (fun x hx => hs x (List.mem_cons_of_mem c hx)))

theorem contains_qm_false (s : List Char) (h : ∀ c ∈ s, c ≠ '?') :
    s.contains '?' = false := by
  simp only [List.contains_eq_any_beq, List.any_eq_false]
  intro c hc
  simp [Ne.symm (h c hc)]

theorem contains_qm_true (s : List Char) (h : '?' ∈ s) : s.contains '?' = true := by
  simp only [List.contains_eq_any_beq, List.any_eq_true]
  exact ⟨'?', h, by simp⟩

theorem ensureHttp_https (t : List Char) : ensureHttp (httpsPre ++ t) = httpsPre ++ t := by
  unfold ensureHttp
  have hcond : List.take 4 (httpsPre ++ t) = "http".data := rfl
  rw [if_pos hcond]

theorem isAmpQ_eq_false (c : Char) (h1 : c ≠ '&') (h2 : c ≠ '?') : isAmpQ c = false := by
  simp [isAmpQ, h1, h2]

theorem ensureHttp_of_take (s : List Char) (h : s.take 4 = "http".data) :
    ensureHttp s = s := by
  unfold ensureHttp
  rw [if_pos h]

/-- `dateParam` re-associated so the stripped literal is a visible prefix. -/
theorem dateParam_split (tsS tsE : Nat) :
    dateParam tsS tsE =
      litDR ++ (natToDec tsS ++ ([','] ++ natToDec tsE)) := by
  simp [dateParam, List.append_assoc]

theorem dateParamTail_no_amp (tsS tsE : Nat) :
    ∀ c ∈ natToDec tsS ++ ([','] ++ natToDec tsE), c ≠ '&' := by
  intro c hc
  rcases List.mem_append.mp hc with hc | hc
  · exact (digit_ne_special c (natToDec_digits tsS c hc)).2.1
  · rcases List.mem_append.mp hc with hc | hc
    · rcases List.mem_singleton.mp hc with rfl
      decide
    · exact (digit_ne_special c (natToDec_digits tsE c hc)).2.1

/-- One application of the store-alert.py `_inject_date_range` on a clean
URL: the fresh parameter is appended after `?`. -/
theorem inject_dash_once (tsS tsE : Nat) (w : List Char) (hw : urlSafe w) :
    inject_date_range_dash tsS tsE (httpsPre ++ w) =
      (httpsPre ++ w) ++ ['?'] ++ dateParam tsS tsE := by
  have hch := safeUrl_chars w hw
  unfold inject_date_range_dash
  rw [ensureHttp_https]
  dsimp only
  rw [stripDR_noU _ _ (le_refl _) (fun c hc => (hch c hc).1)]
  rw [stripTS_noDigit _ _ (le_refl _) (fun c hc => (hch c hc).2.2.2)]
  rw [sub3scan_noAmpQ _ _ (le_refl _)
    (fun c hc => isAmpQ_eq_false c (hch c hc).2.1 (hch c hc).2.2.1)]
  rw [contains_qm_false _ (fun c hc => (hch c hc).2.2.1)]
  have hif : (if (false = true) then (['&'] : List Char) else ['?']) = ['?'] := by simp
  rw [hif]
  have hamp : ∀ c ∈ (httpsPre ++ w) ++ ['?'] ++ dateParam tsS tsE, c ≠ '&' := by
    intro c hc
    rcases List.mem_append.mp hc with hc | hc
    · rcases List.mem_append.mp hc with hc | hc
      · exact (hch c hc).2.1
      · rcases List.mem_singleton.mp hc with rfl
        decide
    · exact dateParam_no_amp tsS tsE c hc
  rw [collapseAmp_noAmp _ _ (le_refl _) hamp]

/-- A second application of the store-alert.py `_inject_date_range` strips
the parameter it appended, drops the dangling separator, and reproduces the
same URL. -/
theorem inject_dash_twice (tsS tsE : Nat) (w : List Char) (hw : urlSafe w) :
    inject_date_range_dash tsS tsE ((httpsPre ++ w) ++ ['?'] ++ dateParam tsS tsE) =
      (httpsPre ++ w) ++ ['?'] ++ dateParam tsS tsE := by
  have hch := safeUrl_chars w hw
  have hsQ : ∀ c ∈ (httpsPre ++ w) ++ ['?'], c ≠ 'u' := by
    intro c hc
    rcases List.mem_append.mp hc with hc | hc
    · exact (hch c hc).1
    · rcases List.mem_singleton.mp hc with rfl
      decide
  have hsD : ∀ c ∈ (httpsPre ++ w) ++ ['?'], c.isDigit = false := by
    intro c hc
    rcases List.mem_append.mp hc with hc | hc
    · exact (hch c hc).2.2.2
    · rcases List.mem_singleton.mp hc with rfl
      decide
  unfold inject_date_range_dash
  rw [dateParam_split]
  rw [ensureHttp_of_take _ (by rfl)]
  dsimp only
  rw [stripDR_param ((httpsPre ++ w) ++ ['?']) _ _ (le_refl _) hsQ
    (dateParamTail_no_amp tsS tsE)]
  rw [stripTS_noDigit _ _ (le_refl _) hsD]
  rw [sub3scan_dropTrailingQ (httpsPre ++ w) _ (le_refl _)
    (fun c hc => isAmpQ_eq_false c (hch c hc).2.1 (hch c hc).2.2.1)]
  rw [contains_qm_false _ (fun c hc => (hch c hc).2.2.1)]
  have hif : (if (false = true) then (['&'] : List Char) else ['?']) = ['?'] := by simp
  rw [hif]
  have hamp : ∀ c ∈ (httpsPre ++ w) ++ ['?'] ++
      (litDR ++ (natToDec tsS ++ ([','] ++ natToDec tsE))), c ≠ '&' := by
    intro c hc
    rcases List.mem_append.mp hc with hc | hc
    · rcases List.mem_append.mp hc with hc | hc
      · exact (hch c hc).2.1
      · rcases List.mem_singleton.mp hc with rfl
        decide
    · rcases List.mem_append.mp hc with hc | hc
      · exact (litDR_facts c hc).1
      · exact dateParamTail_no_amp tsS tsE c hc
  rw [collapseAmp_noAmp _ _ (le_refl _) hamp]

/-- One application of the store_alert.py `_inject_date_range` on a clean
URL. -/
theorem inject_sa_once (tsS tsE : Nat) (w : List Char) (hw : urlSafe w) :
    inject_date_range tsS tsE (httpsPre ++ w) =
      (httpsPre ++ w) ++ ['?'] ++ dateParam tsS tsE := by
  have hch := safeUrl_chars w hw
  unfold inject_date_range
  rw [ensureHttp_https]
  dsimp only
  rw [stripDR_noU _ _ (le_refl _) (fun c hc => (hch c hc).1)]
  rw [contains_qm_false _ (fun c hc => (hch c hc).2.2.1)]
  simp

/-- A second application of the store_alert.py `_inject_date_range` strips
only the parameter text, leaves the old `?` in place, and therefore appends
the fresh parameter after an extra `&`. -/
theorem inject_sa_twice (tsS tsE : Nat) (w : List Char) (hw : urlSafe w) :
    inject_date_range tsS tsE ((httpsPre ++ w) ++ ['?'] ++ dateParam tsS tsE) =
      ((httpsPre ++ w) ++ ['?']) ++ ['&'] ++
        (litDR ++ (natToDec tsS ++ ([','] ++ natToDec tsE))) := by
  have hch := safeUrl_chars w hw
  have hsQ : ∀ c ∈ (httpsPre ++ w) ++ ['?'], c ≠ 'u' := by
    intro c hc
    rcases List.mem_append.mp hc with hc | hc
    · exact (hch c hc).1
    · rcases List.mem_singleton.mp hc with rfl
      decide
  unfold inject_date_range
  rw [dateParam_split]
  rw [ensureHttp_of_take _ (by rfl)]
  dsimp only
  rw [stripDR_param ((httpsPre ++ w) ++ ['?']) _ _ (le_refl _) hsQ
    (dateParamTail_no_amp tsS tsE)]
  rw [contains_qm_true _ (List.mem_append.mpr (Or.inr (List.mem_singleton.mpr rfl)))]
  simp [dateParam_split]

/-- C8 counterexample: in store_alert.py, applying `_inject_date_range` twice
at the same clock does not give the same URL as applying it once. -/
theorem inject_date_range_cex :
    inject_date_range 1 2 (inject_date_range 1 2 ("https://x".data)) ≠
      inject_date_range 1 2 ("https://x".data) := by decide

/-- C8 amended: at a fixed clock, the store-alert.py `_inject_date_range` is
idempotent (shown for every URL `https://w` whose tail avoids `u`, `&`, `?`
and digits): its cleanup passes strip the injected parameter together with
the dangling separator.  The streamlined store_alert.py revision strips only
the parameter text, so a second application inserts an extra separator and
the function is not idempotent there (the program avoids the issue by always
injecting into the preserved `original_url`). -/
theorem inject_date_range_idem (w : List Char) (tsS tsE : Nat) (hw : urlSafe w) :
    inject_date_range_dash tsS tsE (inject_date_range_dash tsS tsE (httpsPre ++ w)) =
      inject_date_range_dash tsS tsE (httpsPre ++ w) ∧
    inject_date_range tsS tsE (inject_date_range tsS tsE (httpsPre ++ w)) ≠
      inject_date_range tsS tsE (httpsPre ++ w) := by
  constructor
  · rw [inject_dash_once tsS tsE w hw, inject_dash_twice tsS tsE w hw]
  · rw [inject_sa_once tsS tsE w hw, inject_sa_twice tsS tsE w hw]
    intro h
    have hlen := congrArg List.length h
    rw [dateParam_split] at hlen
    simp [List.length_append] at hlen

/-- Witness for C8 (amended) at a concrete safe URL and clock. -/
theorem inject_date_range_idem_witness :
    inject_date_range_dash 3 4 (inject_date_range_dash 3 4 (httpsPre ++ ['x'])) =
      inject_date_range_dash 3 4 (httpsPre ++ ['x']) ∧
    inject_date_range 3 4 (inject_date_range 3 4 (httpsPre ++ ['x'])) ≠
      inject_date_range 3 4 (httpsPre ++ ['x']) :=
  inject_date_range_idem ['x'] 3 4 (by unfold urlSafe; decide)

end StoreAlert
